import Mathlib

/-!
Verification of the rule-based code analysis core (`src/codeAnalyzer.ts`)
of the CodeMate repository, as a shallow embedding in Lean 4.

Source text is modelled as `List Char` (JS strings; `toL` converts a Lean
string literal).  JS regular expressions in the rule catalog fall into a
small fragment: sequences of literal characters and greedy star/plus over
single-character classes.  The embedding compiles each pattern to a token
list and runs a backtracking matcher with the same preference order as the
JS engine (greedy, leftmost).  Randomness (`Math.random()` draws) is made
explicit via a `Rnd` record of the values each draw produces.
-/

namespace CodeMate

/-- One token of the regex fragment used by the rule catalog:
a literal character, a single-character class, or a greedy
zero-or-more repetition of a class.  `X+` is encoded as `X X*`. -/
inductive Tok where
  | lit (c : Char)
  | cls (p : Char → Bool)
  | star (p : Char → Bool)

/-- Length of the maximal prefix of `s` whose characters satisfy `p`. -/
def runLen (p : Char → Bool) : List Char → Nat
  | [] => 0
  | a :: rest => if p a then runLen p rest + 1 else 0

/-- Try `g` at `n`, then `n-1`, ..., then `0`; first success wins.
This realises the greedy preference order of a backtracking regex star. -/
def downSearch (g : Nat → Option Nat) : Nat → Option Nat
  | 0 => g 0
  | n + 1 =>
    match g (n + 1) with
    | some r => some r
    | none => downSearch g n

/-- Match a token sequence against a prefix of `s`; returns the number of
characters consumed by the preferred (greedy, backtracking) match. -/
def matchToks (toks : List Tok) (s : List Char) : Option Nat :=
  match toks, s with
  | [], _ => some 0
  | Tok.lit _ :: _, [] => none
  | Tok.lit c :: ts, a :: rest =>
    if a = c then (matchToks ts rest).map (· + 1) else none
  | Tok.cls _ :: _, [] => none
  | Tok.cls p :: ts, a :: rest =>
    if p a then (matchToks ts rest).map (· + 1) else none
  | Tok.star p :: ts, s =>
    downSearch (fun n => (matchToks ts (s.drop n)).map (· + n)) (runLen p s)

/-- Leftmost match: scan positions left to right, return `(index, length)`
of the first position where `toks` matches (JS `RegExp.exec` / `String.match`
on a non-global pattern). -/
def firstMatchAux (toks : List Tok) : List Char → Nat → Option (Nat × Nat)
  | [], i =>
    match matchToks toks [] with
    | some len => some (i, len)
    | none => none
  | a :: rest, i =>
    match matchToks toks (a :: rest) with
    | some len => some (i, len)
    | none => firstMatchAux toks rest (i + 1)

/-- Leftmost match of `toks` in `s`, as `(index, length)`. -/
def firstMatch (toks : List Tok) (s : List Char) : Option (Nat × Nat) :=
  firstMatchAux toks s 0

/-- All non-overlapping matches, scanning left to right and resuming after
each match (JS `String.matchAll` on a global pattern: `lastIndex` advances
to match end, bumped by one on an empty match).  `fuel` bounds the number
of iterations; `s.length + 1` always suffices. -/
def matchAllAux (toks : List Tok) : Nat → List Char → Nat → List (Nat × Nat)
  | 0, _, _ => []
  | fuel + 1, s, off =>
    match firstMatch toks s with
    | none => []
    | some (j, len) =>
      (off + j, len) :: matchAllAux toks fuel (s.drop (j + max len 1)) (off + j + max len 1)

/-- All non-overlapping matches of `toks` in `s`, as `(index, length)` pairs. -/
def matchAll (toks : List Tok) (s : List Char) : List (Nat × Nat) :=
  matchAllAux toks (s.length + 1) s 0

/-- The characters matched by the JS `\s` class (ECMAScript WhiteSpace
plus LineTerminator). -/
def isWs (c : Char) : Bool :=
  c == '\t' || c == '\n' || c == Char.ofNat 11 || c == Char.ofNat 12 || c == '\r' ||
  c == ' ' || c == Char.ofNat 160 || c == Char.ofNat 0x1680 ||
  (decide (0x2000 ≤ c.toNat) && decide (c.toNat ≤ 0x200a)) ||
  c == Char.ofNat 0x2028 || c == Char.ofNat 0x2029 || c == Char.ofNat 0x202f ||
  c == Char.ofNat 0x205f || c == Char.ofNat 0x3000 || c == Char.ofNat 0xfeff

/-- The JS character class `[a-z]`. -/
def isLowerAZ (c : Char) : Bool :=
  decide (97 ≤ c.toNat) && decide (c.toNat ≤ 122)

/-- The JS character class `[A-Z]`. -/
def isUpperAZ (c : Char) : Bool :=
  decide (65 ≤ c.toNat) && decide (c.toNat ≤ 90)

/-- The JS negated class `[^c]`. -/
def notCh (c : Char) (d : Char) : Bool := !(d == c)

/-- The characters of a string literal, as regex literal tokens. -/
def lits (s : String) : List Tok := s.data.map Tok.lit

/-- Convert a Lean string literal to the `List Char` source-text model. -/
def toL (s : String) : List Char := s.data

/-- The regex `\s+`, encoded as `\s \s*`. -/
def wsPlus : List Tok := [Tok.cls isWs, Tok.star isWs]

/-- The regex `\s*`. -/
def wsStar : List Tok := [Tok.star isWs]

/-- The character `{` (written via its code point). -/
def lbrace : Char := Char.ofNat 123

/-- The character `}` (written via its code point). -/
def rbrace : Char := Char.ofNat 125

/-- The `type` field of an issue (`'error' | 'warning' | 'suggestion'`). -/
inductive IssueType where
  | error
  | warning
  | suggestion
  deriving DecidableEq, Repr

/-- The `severity` field of an issue (`'high' | 'medium' | 'low'`). -/
inductive Severity where
  | high
  | medium
  | low
  deriving DecidableEq, Repr

/-- A catalog rule (`javaRules` / `pythonRules` / `cppRules` entries).
`global` records whether the JS regex carries the `g` flag. -/
structure Rule where
  pattern : List Tok
  global : Bool
  type : IssueType
  message : String
  rule : String
  severity : Severity

/-- The `Issue` interface of `codeAnalyzer.ts`.  `column` is an `Int`
because the JS computation subtracts a `lastIndexOf` result that may
be `-1`. -/
structure Issue where
  id : String
  type : IssueType
  line : Nat
  column : Int
  message : String
  rule : String
  severity : Severity
  deriving DecidableEq, Repr

/-- The `metrics` field of `AnalysisResult`.  Fields computed by JS
subtraction are `Int` (the `max` floors keep them non-negative anyway). -/
structure Metrics where
  linesOfCode : Nat
  cyclomaticComplexity : Nat
  maintainabilityIndex : Int
  duplicateLines : Nat
  testCoverage : Int
  deriving DecidableEq, Repr

/-- The `AnalysisResult` interface of `codeAnalyzer.ts`. -/
structure AnalysisResult where
  score : Int
  issues : List Issue
  metrics : Metrics
  suggestions : List String
  deriving DecidableEq, Repr

/-- The values produced by the `Math.random()` draws of one `analyzeCode`
invocation, made explicit.  `genId k` models the string returned by the
`k`-th `generateRandomId()` call (ids carry no semantics).  `fillerLine1`
and `fillerLine2` model `Math.floor(Math.random() * lines.length)` for the
two filler issues (so the real range is `[0, lines.length)`), `dup` models
`Math.floor(Math.random() * 5)` and `sug` models
`Math.floor(Math.random() * 3)`. -/
structure Rnd where
  genId : Nat → String
  fillerLine1 : Nat
  fillerLine2 : Nat
  dup : Nat
  sug : Nat

/-- The regex `/class\s+[a-z]/`. -/
def javaClassPattern : List Tok :=
  lits "class" ++ wsPlus ++ [Tok.cls isLowerAZ]

/-- The regex `/public\s+static\s+void\s+main\s*\([^)]*\)\s*\x7b[^\x7d]*\x7d/`. -/
def javaMainPattern : List Tok :=
  lits "public" ++ wsPlus ++ lits "static" ++ wsPlus ++ lits "void" ++ wsPlus ++
  lits "main" ++ wsStar ++
  [Tok.lit '(', Tok.star (notCh ')'), Tok.lit ')'] ++ wsStar ++
  [Tok.lit lbrace, Tok.star (notCh rbrace), Tok.lit rbrace]

/-- The regex `/import\s+[^;]+;/` (global). -/
def javaImportPattern : List Tok :=
  lits "import" ++ wsPlus ++ [Tok.cls (notCh ';'), Tok.star (notCh ';'), Tok.lit ';']

/-- The regex `/for\s*\([^)]*\)\s*\x7b\s*for\s*\([^)]*\)/`. -/
def javaNestedLoopPattern : List Tok :=
  lits "for" ++ wsStar ++ [Tok.lit '(', Tok.star (notCh ')'), Tok.lit ')'] ++
  wsStar ++ [Tok.lit lbrace] ++ wsStar ++
  lits "for" ++ wsStar ++ [Tok.lit '(', Tok.star (notCh ')'), Tok.lit ')']

/-- The regex `/def\s+[A-Z]/`. -/
def pyDefPattern : List Tok :=
  lits "def" ++ wsPlus ++ [Tok.cls isUpperAZ]

/-- The regex `/import\s+\*/`. -/
def pyImportStarPattern : List Tok :=
  lits "import" ++ wsPlus ++ [Tok.lit '*']

/-- The regex `/except:/`. -/
def pyExceptPattern : List Tok :=
  lits "except:"

/-- The regex `/#include\s*<[^>]+>/` (global). -/
def cppIncludePattern : List Tok :=
  lits "#include" ++ wsStar ++
  [Tok.lit '<', Tok.cls (notCh '>'), Tok.star (notCh '>'), Tok.lit '>']

/-- The regex `/using\s+namespace\s+std;/`. -/
def cppUsingNamespacePattern : List Tok :=
  lits "using" ++ wsPlus ++ lits "namespace" ++ wsPlus ++ lits "std;"

/-- The regex `/new\s+/`. -/
def cppNewPattern : List Tok :=
  lits "new" ++ wsPlus

/-- First rule of `javaRules`. -/
def javaRule1 : Rule :=
  { pattern := javaClassPattern, global := false, type := .warning,
    message := "Class names should start with uppercase letter",
    rule := "naming-convention", severity := .medium }

/-- Second rule of `javaRules`. -/
def javaRule2 : Rule :=
  { pattern := javaMainPattern, global := false, type := .suggestion,
    message := "Consider extracting logic from main method into separate methods",
    rule := "method-complexity", severity := .low }

/-- Third rule of `javaRules` (global pattern: find-all mode). -/
def javaRule3 : Rule :=
  { pattern := javaImportPattern, global := true, type := .suggestion,
    message := "Remove unused imports to improve code clarity",
    rule := "unused-imports", severity := .low }

/-- Fourth rule of `javaRules`. -/
def javaRule4 : Rule :=
  { pattern := javaNestedLoopPattern, global := false, type := .warning,
    message := "Nested loops detected - consider optimization",
    rule := "performance", severity := .medium }

/-- The `javaRules` catalog. -/
def javaRules : List Rule := [javaRule1, javaRule2, javaRule3, javaRule4]

/-- First rule of `pythonRules`. -/
def pyRule1 : Rule :=
  { pattern := pyDefPattern, global := false, type := .warning,
    message := "Function names should be in snake_case",
    rule := "naming-convention", severity := .medium }

/-- Second rule of `pythonRules`. -/
def pyRule2 : Rule :=
  { pattern := pyImportStarPattern, global := false, type := .warning,
    message := "Avoid wildcard imports",
    rule := "import-style", severity := .medium }

/-- Third rule of `pythonRules`. -/
def pyRule3 : Rule :=
  { pattern := pyExceptPattern, global := false, type := .error,
    message := "Bare except clauses should specify exception types",
    rule := "exception-handling", severity := .high }

/-- The `pythonRules` catalog. -/
def pythonRules : List Rule := [pyRule1, pyRule2, pyRule3]

/-- First rule of `cppRules` (global pattern: find-all mode). -/
def cppRule1 : Rule :=
  { pattern := cppIncludePattern, global := true, type := .suggestion,
    message := "Consider using forward declarations to reduce compilation time",
    rule := "include-optimization", severity := .low }

/-- Second rule of `cppRules`. -/
def cppRule2 : Rule :=
  { pattern := cppUsingNamespacePattern, global := false, type := .warning,
    message := "Avoid \"using namespace std\" in header files",
    rule := "namespace-pollution", severity := .medium }

/-- Third rule of `cppRules`. -/
def cppRule3 : Rule :=
  { pattern := cppNewPattern, global := false, type := .suggestion,
    message := "Consider using smart pointers instead of raw pointers",
    rule := "memory-management", severity := .medium }

/-- The `cppRules` catalog. -/
def cppRules : List Rule := [cppRule1, cppRule2, cppRule3]

/-- The `switch (language)` of `analyzeCode`: rule set by language id,
empty for anything unrecognized. -/
def rulesFor (language : String) : List Rule :=
  if language = "java" then javaRules
  else if language = "python" then pythonRules
  else if language = "cpp" then cppRules
  else []

/-- Prepend `a` to the head segment of a split-result (helper for `jsSplit`). -/
def consHead (a : Char) : List (List Char) → List (List Char)
  | [] => [[a]]
  | h :: t => (a :: h) :: t

/-- JS `String.prototype.split` with a single-character separator:
`jsSplit c s` cuts `s` at every occurrence of `c`; the empty string
splits to `[[]]`. -/
def jsSplit (c : Char) : List Char → List (List Char)
  | [] => [[]]
  | a :: rest => if a = c then [] :: jsSplit c rest else consHead a (jsSplit c rest)

/-- JS `String.prototype.trim`: strip `\s`-class characters at both ends. -/
def jsTrim (l : List Char) : List Char :=
  ((l.dropWhile isWs).reverse.dropWhile isWs).reverse

/-- JS `String.prototype.lastIndexOf(c, fr)` for a single character:
the largest index `i ≤ fr` with `s[i] = c`, or `-1` if none. -/
def jsLastIndexOfAux (c : Char) : List Char → Int → Int → Int
  | [], _, best => best
  | a :: rest, i, best => jsLastIndexOfAux c rest (i + 1) (if a = c then i else best)

/-- JS `String.prototype.lastIndexOf(c, fr)` for a single character. -/
def jsLastIndexOf (s : List Char) (c : Char) (fr : Nat) : Int :=
  jsLastIndexOfAux c (s.take (fr + 1)) 0 (-1)

/-- The filter of line 110: `line.trim() && !line.trim().startsWith('//')`. -/
def isLineCounted (l : List Char) : Bool :=
  let t := jsTrim l
  !t.isEmpty && !((t.take 2).beq ['/', '/'])

/-- The alternatives of the regex `/if|else|while|for|switch|case/`,
in the order the JS engine tries them. -/
def kwWords : List (List Char) := [toL "if", toL "else", toL "while", toL "for", toL "switch", toL "case"]

/-- Length of the keyword alternation's match at the head of `s`, if any. -/
def kwAt (s : List Char) : Option Nat :=
  kwWords.findSome? (fun w => if w.isPrefixOf s then some w.length else none)

/-- Fuel-bounded scan behind `countKw`; the fuel (an upper bound on the
number of scan steps, each of which consumes at least one character)
makes the recursion structural. -/
def countKwAux : Nat → List Char → Nat
  | 0, _ => 0
  | _ + 1, [] => 0
  | fuel + 1, a :: rest =>
    match kwAt (a :: rest) with
    | some len => 1 + countKwAux fuel ((a :: rest).drop (max len 1))
    | none => countKwAux fuel rest

/-- Number of matches of `/if|else|while|for|switch|case/g` in `s`
(the `code.match(...)?.length || 0` term of line 185). -/
def countKw (s : List Char) : Nat := countKwAux s.length s

/-- The matches the `forEach` body of lines 128-158 iterates over for one
rule: all matches (global pattern, `matchAll`) or the first match
(non-global pattern, `test` + `match`), as `(index, length)` pairs. -/
def ruleMatches (code : List Char) (r : Rule) : List (Nat × Nat) :=
  if r.global then matchAll r.pattern code else (firstMatch r.pattern code).toList

/-- The issue pushed for a match at offset `idx` (lines 133-141 / 147-155):
`line = code.substring(0, idx).split('\n').length` and
`column = idx ? idx - code.lastIndexOf('\n', idx) : 0`.
The `id` placeholder is overwritten by `setIds`. -/
def mkIssue (code : List Char) (r : Rule) (idx : Nat) : Issue :=
  { id := "",
    type := r.type,
    line := (jsSplit '\n' (code.take idx)).length,
    column := if idx ≠ 0 then (idx : Int) - jsLastIndexOf code '\n' idx else 0,
    message := r.message,
    rule := r.rule,
    severity := r.severity }

/-- All catalog-derived issues, in `forEach` push order (lines 128-158). -/
def catalogIssues (code : List Char) (rules : List Rule) : List Issue :=
  rules.flatMap (fun r => (ruleMatches code r).map (fun m => mkIssue code r m.1))

/-- The two filler issues of lines 161-180 (`additionalIssues`), whose
lines are `Math.floor(Math.random() * lines.length) + 1`. -/
def fillerIssues (rnd : Rnd) : List Issue :=
  [ { id := "", type := .suggestion, line := rnd.fillerLine1 + 1, column := 5,
      message := "Consider adding documentation comments",
      rule := "documentation", severity := .low },
    { id := "", type := .warning, line := rnd.fillerLine2 + 1, column := 10,
      message := "Variable naming could be more descriptive",
      rule := "naming-clarity", severity := .medium } ]

/-- Assign the `generateRandomId()` outputs: the `k`-th issue created gets
`g k` as its `id`. -/
def setIds (g : Nat → String) : List Issue → List Issue
  | [] => []
  | a :: l => { a with id := g 0 } :: setIds (fun i => g (i + 1)) l

/-- The fixed 5-element advisory pool of lines 197-203. -/
def suggestionPool : List String :=
  [ "Break down large methods into smaller, more focused functions",
    "Add unit tests to improve code reliability",
    "Use meaningful variable and method names",
    "Consider using design patterns for better code structure",
    "Add error handling and logging where appropriate" ]

/-- The embedding of `analyzeCode(code, language)` (lines 105-217).  The
artificial 2-second delay of line 107 has no observable effect on the
returned value and is not modelled; the `Math.random()` draws are supplied
by `rnd`. -/
def analyzeCode (code : List Char) (language : String) (rnd : Rnd) : AnalysisResult :=
  let lines := jsSplit '\n' code
  let linesOfCode := (lines.filter isLineCounted).length
  let rules := rulesFor language
  let issues0 := catalogIssues code rules ++ fillerIssues rnd
  let issues := setIds rnd.genId issues0
  let cyclomaticComplexity := max 1 (linesOfCode / 10 + countKw code)
  let maintainabilityIndex : Int :=
    max 10 (100 - (issues.length : Int) * 5 - ((cyclomaticComplexity / 2 : Nat) : Int))
  let duplicateLines := rnd.dup
  let testCoverage : Int := max 0 (100 - (issues.length : Int) * 3)
  let errorPenalty : Int := ((issues.filter (fun i => i.type == IssueType.error)).length : Int) * 15
  let warningPenalty : Int := ((issues.filter (fun i => i.type == IssueType.warning)).length : Int) * 8
  let suggestionPenalty : Int := ((issues.filter (fun i => i.type == IssueType.suggestion)).length : Int) * 3
  let score := max 0 (min 100 (100 - errorPenalty - warningPenalty - suggestionPenalty))
  { score := score,
    issues := issues,
    metrics :=
      { linesOfCode := linesOfCode,
        cyclomaticComplexity := cyclomaticComplexity,
        maintainabilityIndex := maintainabilityIndex,
        duplicateLines := duplicateLines,
        testCoverage := testCoverage },
    suggestions := suggestionPool.take (rnd.sug + 2) }

/-- Number of issues carrying a given `rule` id. -/
def countRule (issues : List Issue) (name : String) : Nat :=
  issues.countP (fun i => i.rule == name)

/-- Number of issues carrying a given `type`. -/
def countType (issues : List Issue) (t : IssueType) : Nat :=
  issues.countP (fun i => i.type == t)

/-- `lineCount(sourceText)`: the number of line-break-separated segments,
i.e. `sourceText.split('\n').length`. -/
def lineCount (code : List Char) : Nat := (jsSplit '\n' code).length

/-- All fields of an issue except the generated `id`. -/
def strip (i : Issue) : IssueType × Nat × Int × String × String × Severity :=
  (i.type, i.line, i.column, i.message, i.rule, i.severity)

/-- The randomness values used by the concrete witness computations:
all ids are the empty string, both filler lines use draw value 0,
`duplicateLines` draw 0 and suggestion-length draw 1. -/
def rnd0 : Rnd :=
  { genId := fun _ => "", fillerLine1 := 0, fillerLine2 := 0, dup := 0, sug := 1 }

/-- The filler documentation issue as produced under `rnd0` on a one-line
source (used by concrete witness computations). -/
def wIssueDoc : Issue :=
  { id := "", type := .suggestion, line := 1, column := 5,
    message := "Consider adding documentation comments",
    rule := "documentation", severity := .low }

/-- The issue the bare-except rule produces on the source `"x\nexcept: y"`
under `rnd0` (used by concrete witness computations): the match starts at
offset 2, right after the line break at offset 1 — the start of line 2 —
and the code assigns it column 1. -/
def wIssueExcept : Issue :=
  { id := "", type := .error, line := 2, column := 1,
    message := "Bare except clauses should specify exception types",
    rule := "exception-handling", severity := .high }

theorem jsSplit_ne_nil (c : Char) (l : List Char) : jsSplit c l ≠ [] := by
  induction l with
  | nil => simp [jsSplit]
  | cons a rest ih =>
    by_cases h : a = c
    · simp [jsSplit, h]
    · simp only [jsSplit, if_neg h]
      cases hr : jsSplit c rest with
      | nil => exact absurd hr ih
      | cons x xs => simp [consHead]

theorem length_jsSplit (c : Char) (l : List Char) :
    (jsSplit c l).length = l.count c + 1 := by
  induction l with
  | nil => simp [jsSplit]
  | cons a rest ih =>
    by_cases h : a = c
    · simp [jsSplit, h, List.count_cons, ih]
    · simp only [jsSplit, if_neg h]
      cases hr : jsSplit c rest with
      | nil => exact absurd hr (jsSplit_ne_nil c rest)
      | cons x xs =>
        have hne : (a == c) = false := beq_eq_false_iff_ne.mpr h
        rw [hr] at ih
        simp only [consHead, List.length_cons, List.count_cons, hne] at *
        simp at *
        omega

theorem setIds_length (g : Nat → String) (l : List Issue) :
    (setIds g l).length = l.length := by
  induction l generalizing g with
  | nil => rfl
  | cons a l ih => simp [setIds, ih]

theorem setIds_map_strip (g : Nat → String) (l : List Issue) :
    (setIds g l).map strip = l.map strip := by
  induction l generalizing g with
  | nil => rfl
  | cons a l ih => simp only [setIds, List.map_cons, ih]; rfl

theorem countRule_setIds (g : Nat → String) (l : List Issue) (name : String) :
    countRule (setIds g l) name = countRule l name := by
  induction l generalizing g with
  | nil => rfl
  | cons a l ih =>
    simp only [countRule, setIds, List.countP_cons] at *
    rw [ih]

theorem countType_setIds (g : Nat → String) (l : List Issue) (t : IssueType) :
    countType (setIds g l) t = countType l t := by
  induction l generalizing g with
  | nil => rfl
  | cons a l ih =>
    simp only [countType, setIds, List.countP_cons] at *
    rw [ih]

theorem mem_setIds {g : Nat → String} {l : List Issue} {iss : Issue}
    (h : iss ∈ setIds g l) : ∃ a ∈ l, strip iss = strip a := by
  induction l generalizing g with
  | nil => simp [setIds] at h
  | cons a l ih =>
    simp only [setIds, List.mem_cons] at h
    rcases h with h | h
    · exact ⟨a, List.mem_cons_self a l, by rw [h]; rfl⟩
    · rcases ih h with ⟨b, hb, hs⟩
      exact ⟨b, List.mem_cons_of_mem a hb, hs⟩

theorem countRule_catalogIssues (code : List Char) (rules : List Rule) (name : String) :
    countRule (catalogIssues code rules) name =
      (rules.map (fun r => if r.rule == name then (ruleMatches code r).length else 0)).sum := by
  induction rules with
  | nil => rfl
  | cons r rs ih =>
    simp only [catalogIssues, List.flatMap_cons, List.map_cons, List.sum_cons] at *
    rw [countRule, List.countP_append, ← countRule, ← countRule, ih]
    congr 1
    rw [countRule, List.countP_map]
    cases h : (r.rule == name) with
    | true =>
      have hc : ((fun i => i.rule == name) ∘ fun m : Nat × Nat => mkIssue code r m.1)
          = fun _ => true := by
        funext m
        simp only [Function.comp, mkIssue]
        exact h
      simp [hc, List.countP_true]
    | false =>
      have hc : ((fun i => i.rule == name) ∘ fun m : Nat × Nat => mkIssue code r m.1)
          = fun _ => false := by
        funext m
        simp only [Function.comp, mkIssue]
        exact h
      simp [hc, List.countP_false]

theorem analyzeCode_issues (code : List Char) (lang : String) (rnd : Rnd) :
    (analyzeCode code lang rnd).issues =
      setIds rnd.genId (catalogIssues code (rulesFor lang) ++ fillerIssues rnd) := rfl

theorem analyzeCode_suggestions (code : List Char) (lang : String) (rnd : Rnd) :
    (analyzeCode code lang rnd).suggestions = suggestionPool.take (rnd.sug + 2) := rfl

theorem countType_eq_filter_length (l : List Issue) (t : IssueType) :
    countType l t = (l.filter (fun i => i.type == t)).length := by
  rw [countType, List.countP_eq_length_filter]

theorem analyzeCode_score (code : List Char) (lang : String) (rnd : Rnd) :
    (analyzeCode code lang rnd).score =
      max 0 (min 100 (100
        - (countType (analyzeCode code lang rnd).issues IssueType.error : Int) * 15
        - (countType (analyzeCode code lang rnd).issues IssueType.warning : Int) * 8
        - (countType (analyzeCode code lang rnd).issues IssueType.suggestion : Int) * 3)) := by
  rw [countType_eq_filter_length, countType_eq_filter_length, countType_eq_filter_length]
  rfl

theorem score_bounds (code : List Char) (lang : String) (rnd : Rnd) :
    0 ≤ (analyzeCode code lang rnd).score ∧ (analyzeCode code lang rnd).score ≤ 100 := by
  rw [analyzeCode_score]
  exact ⟨le_max_left _ _, max_le (by norm_num) (min_le_left _ _)⟩

theorem countRule_analyze (code : List Char) (lang : String) (rnd : Rnd) (name : String) :
    countRule (analyzeCode code lang rnd).issues name =
      ((rulesFor lang).map (fun r => if r.rule == name then (ruleMatches code r).length else 0)).sum
        + countRule (fillerIssues rnd) name := by
  rw [analyzeCode_issues, countRule_setIds, countRule, List.countP_append,
    ← countRule, ← countRule, countRule_catalogIssues]

theorem toList_len (o : Option (Nat × Nat)) :
    (o.toList).length = if o.isSome then 1 else 0 := by
  cases o <;> rfl

theorem countType_fillerIssues_w (rnd : Rnd) :
    countType (fillerIssues rnd) IssueType.warning = 1 := rfl

theorem countType_fillerIssues_s (rnd : Rnd) :
    countType (fillerIssues rnd) IssueType.suggestion = 1 := rfl

/-- Claim C2: the result's score equals
`clamp(100 - 15*countErrors - 8*countWarnings - 3*countSuggestions, 0, 100)`,
where the three counts are over the `type` field of all issues of the
result (catalog-derived and filler alike), and the score always lies
in `[0, 100]`. -/
theorem score_formula (code : List Char) (lang : String) (rnd : Rnd) :
    (analyzeCode code lang rnd).score =
      max 0 (min 100 (100
        - 15 * (countType (analyzeCode code lang rnd).issues IssueType.error : Int)
        - 8 * (countType (analyzeCode code lang rnd).issues IssueType.warning : Int)
        - 3 * (countType (analyzeCode code lang rnd).issues IssueType.suggestion : Int)))
      ∧ 0 ≤ (analyzeCode code lang rnd).score
      ∧ (analyzeCode code lang rnd).score ≤ 100 := by
  refine ⟨?_, score_bounds code lang rnd⟩
  rw [analyzeCode_score]
  ring_nf

/-- Claim C9: `analyzeCode` is a total function of its inputs — for every
source text, language id and randomness valuation it returns an
`AnalysisResult` (the embedding has no failure path, mirroring the JS
code, which throws on no path); the returned result is a well-formed one
with its score in `[0, 100]`.  The artificial fixed delay of line 107 is
timing behavior with no effect on the returned value. -/
theorem analyze_total (code : List Char) (lang : String) (rnd : Rnd) :
    ∃ res : AnalysisResult, analyzeCode code lang rnd = res
      ∧ 0 ≤ res.score ∧ res.score ≤ 100 :=
  ⟨analyzeCode code lang rnd, rfl, score_bounds code lang rnd⟩

/-- Claim C6: on empty source text the returned metrics have
`linesOfCode = 0` and `cyclomaticComplexity = 1`, for every language id
and randomness valuation. -/
theorem empty_source_metrics (lang : String) (rnd : Rnd) :
    (analyzeCode (toL "") lang rnd).metrics.linesOfCode = 0
      ∧ (analyzeCode (toL "") lang rnd).metrics.cyclomaticComplexity = 1 :=
  ⟨rfl, rfl⟩

/-- Claim C8: the suggestions list is the length-`(sug + 2)` initial
segment of the fixed 5-element advisory pool, in pool order; since the
suggestion-length draw `sug` models `Math.floor(Math.random() * 3)` and
hence is below 3, the length lies in `[2, 4]`. -/
theorem suggestions_from_pool (code : List Char) (lang : String) (rnd : Rnd)
    (h : rnd.sug < 3) :
    (analyzeCode code lang rnd).suggestions = suggestionPool.take (rnd.sug + 2)
      ∧ suggestionPool.length = 5
      ∧ 2 ≤ (analyzeCode code lang rnd).suggestions.length
      ∧ (analyzeCode code lang rnd).suggestions.length ≤ 4 := by
  refine ⟨rfl, rfl, ?_, ?_⟩ <;>
  · rw [analyzeCode_suggestions, List.length_take]
    simp only [suggestionPool, List.length_cons, List.length_nil]
    omega

/-- Witness for C8 at concrete inputs: `rnd0` has suggestion draw 1,
below 3, and the resulting suggestion list is the pool's 3-element
initial segment, of length between 2 and 4. -/
theorem suggestions_from_pool_witness :
    rnd0.sug < 3
      ∧ (analyzeCode (toL "") "java" rnd0).suggestions = suggestionPool.take (rnd0.sug + 2)
      ∧ 2 ≤ (analyzeCode (toL "") "java" rnd0).suggestions.length
      ∧ (analyzeCode (toL "") "java" rnd0).suggestions.length ≤ 4 :=
  ⟨by decide,
   (suggestions_from_pool (toL "") "java" rnd0 (by decide)).1,
   (suggestions_from_pool (toL "") "java" rnd0 (by decide)).2.2.1,
   (suggestions_from_pool (toL "") "java" rnd0 (by decide)).2.2.2⟩

/-- Claim C10: on every input the issue list is exactly the catalog-derived
issues followed by the two filler issues — a `suggestion` with rule id
`documentation` and column 5, then a `warning` with rule id `naming-clarity`
and column 10 (compared up to the generated `id` field via `strip`) — so the
list always has at least 2 elements, and because those two alone cost
8 + 3 penalty points the score never exceeds 89. -/
theorem filler_issues_appended (code : List Char) (lang : String) (rnd : Rnd) :
    (analyzeCode code lang rnd).issues.map strip =
      (catalogIssues code (rulesFor lang)).map strip ++
        [ (IssueType.suggestion, rnd.fillerLine1 + 1, (5 : Int),
            "Consider adding documentation comments", "documentation", Severity.low),
          (IssueType.warning, rnd.fillerLine2 + 1, (10 : Int),
            "Variable naming could be more descriptive", "naming-clarity", Severity.medium) ]
      ∧ 2 ≤ (analyzeCode code lang rnd).issues.length
      ∧ (analyzeCode code lang rnd).score ≤ 89 := by
  refine ⟨?_, ?_, ?_⟩
  · rw [analyzeCode_issues, setIds_map_strip, List.map_append]
    rfl
  · rw [analyzeCode_issues, setIds_length, List.length_append]
    simp [fillerIssues]
  · have hw : 1 ≤ countType (analyzeCode code lang rnd).issues IssueType.warning := by
      rw [analyzeCode_issues, countType_setIds, countType, List.countP_append,
        ← countType, ← countType, countType_fillerIssues_w]
      omega
    have hs : 1 ≤ countType (analyzeCode code lang rnd).issues IssueType.suggestion := by
      rw [analyzeCode_issues, countType_setIds, countType, List.countP_append,
        ← countType, ← countType, countType_fillerIssues_s]
      omega
    rw [analyzeCode_score]
    have hw' : (1 : Int) ≤ (countType (analyzeCode code lang rnd).issues IssueType.warning : Int) := by
      exact_mod_cast hw
    have hs' : (1 : Int) ≤ (countType (analyzeCode code lang rnd).issues IssueType.suggestion : Int) := by
      exact_mod_cast hs
    have he : (0 : Int) ≤ (countType (analyzeCode code lang rnd).issues IssueType.error : Int) := by
      positivity
    refine max_le (by norm_num) (le_trans (min_le_right _ _) ?_)
    nlinarith

/-- Claim C3: for the two find-all rules (the only rules whose JS patterns
carry the `g` flag: `unused-imports` for java and `include-optimization`
for cpp), the number of issues in the result carrying the rule's id equals
the number of non-overlapping occurrences of the rule's pattern in the
source text, as enumerated left to right by `matchAll` — one issue per
occurrence. -/
theorem findall_rule_counts (code : List Char) (rnd : Rnd) :
    countRule (analyzeCode code "java" rnd).issues "unused-imports"
        = (matchAll javaImportPattern code).length
      ∧ countRule (analyzeCode code "cpp" rnd).issues "include-optimization"
        = (matchAll cppIncludePattern code).length := by
  constructor
  · rw [countRule_analyze]
    have hfill : countRule (fillerIssues rnd) "unused-imports" = 0 := rfl
    rw [hfill]
    simp [rulesFor, javaRules, javaRule1, javaRule2, javaRule3, javaRule4, ruleMatches]
  · rw [countRule_analyze]
    have hfill : countRule (fillerIssues rnd) "include-optimization" = 0 := rfl
    rw [hfill]
    simp [rulesFor, cppRules, cppRule1, cppRule2, cppRule3, ruleMatches]

/-- Claim C7: for a language id other than `java`, `python` and `cpp` the
selected rule set is empty, the catalog contributes no issues, and analysis
still returns a result — whose issue list consists of just the two filler
issues. -/
theorem unknown_language_empty (lang : String)
    (h1 : lang ≠ "java") (h2 : lang ≠ "python") (h3 : lang ≠ "cpp")
    (code : List Char) (rnd : Rnd) :
    rulesFor lang = []
      ∧ catalogIssues code (rulesFor lang) = []
      ∧ (analyzeCode code lang rnd).issues.length = 2
      ∧ ∀ iss ∈ (analyzeCode code lang rnd).issues,
          iss.rule = "documentation" ∨ iss.rule = "naming-clarity" := by
  have hr : rulesFor lang = [] := by
    rw [rulesFor, if_neg h1, if_neg h2, if_neg h3]
  refine ⟨hr, by rw [hr]; rfl, ?_, ?_⟩
  · rw [analyzeCode_issues, setIds_length, List.length_append, hr]
    rfl
  · intro iss hmem
    rw [analyzeCode_issues, hr] at hmem
    rcases mem_setIds hmem with ⟨a, ha, hs⟩
    have hrule : iss.rule = a.rule := by
      simp only [strip, Prod.mk.injEq] at hs
      exact hs.2.2.2.2.1
    simp only [catalogIssues, List.flatMap_nil, List.nil_append, fillerIssues,
      List.mem_cons, List.not_mem_nil, or_false] at ha
    rcases ha with rfl | rfl
    · left
      rw [hrule]
    · right
      rw [hrule]

/-- Witness for C7 at concrete inputs: `ruby` is none of the three
recognized ids, its rule set is empty and the result has exactly the two
filler issues. -/
theorem unknown_language_empty_witness :
    rulesFor "ruby" = [] ∧ (analyzeCode (toL "x") "ruby" rnd0).issues.length = 2 :=
  ⟨(unknown_language_empty "ruby" (by decide) (by decide) (by decide) (toL "x") rnd0).1,
   (unknown_language_empty "ruby" (by decide) (by decide) (by decide) (toL "x") rnd0).2.2.1⟩

theorem rulesFor_java : rulesFor "java" = javaRules := by rfl

theorem rulesFor_python : rulesFor "python" = pythonRules := by rfl

theorem rulesFor_cpp : rulesFor "cpp" = cppRules := by rfl

/-- Claim C5: every issue of the result — catalog-derived or filler — has
its line within `[1, lineCount(sourceText)]`.  The hypotheses record that
the filler line draws model `Math.floor(Math.random() * lines.length)`,
whose value is always below `lines.length`. -/
theorem issue_line_bounds (code : List Char) (lang : String) (rnd : Rnd)
    (h1 : rnd.fillerLine1 < lineCount code) (h2 : rnd.fillerLine2 < lineCount code) :
    ∀ iss ∈ (analyzeCode code lang rnd).issues,
      1 ≤ iss.line ∧ iss.line ≤ lineCount code := by
  intro iss hmem
  rw [analyzeCode_issues] at hmem
  rcases mem_setIds hmem with ⟨a, ha, hs⟩
  have hline : iss.line = a.line := by
    simp only [strip, Prod.mk.injEq] at hs
    exact hs.2.1
  rw [hline]
  rcases List.mem_append.mp ha with hcat | hfill
  · rcases List.mem_flatMap.mp hcat with ⟨r, hr, hmm⟩
    rcases List.mem_map.mp hmm with ⟨m, hm, rfl⟩
    have hml : (mkIssue code r m.1).line = (jsSplit '\n' (code.take m.1)).length := rfl
    constructor
    · rw [hml, length_jsSplit]
      omega
    · rw [hml, length_jsSplit, lineCount, length_jsSplit]
      have hcnt := (List.take_sublist m.1 code).count_le '\n'
      omega
  · simp only [fillerIssues, List.mem_cons, List.not_mem_nil, or_false] at hfill
    rcases hfill with rfl | rfl
    · refine ⟨?_, ?_⟩
      · show 1 ≤ rnd.fillerLine1 + 1
        omega
      · show rnd.fillerLine1 + 1 ≤ lineCount code
        omega
    · refine ⟨?_, ?_⟩
      · show 1 ≤ rnd.fillerLine2 + 1
        omega
      · show rnd.fillerLine2 + 1 ≤ lineCount code
        omega

/-- Witness for C5 at concrete inputs: on the one-line source `"a"` with
`rnd0`, the filler draws are below `lineCount`, the filler documentation
issue is in the result and its line lies in `[1, 1]`. -/
theorem issue_line_bounds_witness :
    rnd0.fillerLine1 < lineCount (toL "a")
      ∧ rnd0.fillerLine2 < lineCount (toL "a")
      ∧ wIssueDoc ∈ (analyzeCode (toL "a") "java" rnd0).issues
      ∧ 1 ≤ wIssueDoc.line ∧ wIssueDoc.line ≤ lineCount (toL "a") :=
  ⟨by decide, by decide, by decide,
   issue_line_bounds (toL "a") "java" rnd0 (by decide) (by decide) wIssueDoc (by decide)⟩

/-- C1 as stated is false on the code: on the cpp source `"a new b"` the
`memory-management` rule matches at offset 2, which begins before any line
break of the text (the text contains none), so the claim requires
column 0; the code computes `2 - lastIndexOf('\n', 2) = 2 - (-1) = 3`. -/
theorem column_zero_claim_false :
    firstMatch cppNewPattern (toL "a new b") = some (2, 4)
      ∧ (toL "a new b").count '\n' = 0
      ∧ ((analyzeCode (toL "a new b") "cpp" rnd0).issues.filter
          (fun i => i.rule == "memory-management")).map (fun i => (i.line, i.column))
        = [(1, 3)]
      ∧ (3 : Int) ≠ 0 := by
  refine ⟨by decide, by decide, by decide, by decide⟩

/-- Claim C1, amended: for every catalog-derived issue (any issue whose
rule id is not one of the two filler ids) there is a match offset `idx`
with `line = 1 +` the count of line breaks preceding `idx`, and
`column = 0` if `idx = 0`, else `column = idx - i` where `i` is the index
of the last line break at or before `idx`, or `-1` if none precedes — so
a match at a line start other than offset 0 gets column 1, and a match on
the first line at offset `k > 0` gets column `k + 1`, not the claimed 0. -/
theorem matcher_line_column (code : List Char) (lang : String) (rnd : Rnd) :
    ∀ iss ∈ (analyzeCode code lang rnd).issues,
      iss.rule ≠ "documentation" → iss.rule ≠ "naming-clarity" →
      ∃ idx : Nat,
        iss.line = (code.take idx).count '\n' + 1
          ∧ iss.column =
              (if idx ≠ 0 then (idx : Int) - jsLastIndexOf code '\n' idx else 0) := by
  intro iss hmem hd hn
  rw [analyzeCode_issues] at hmem
  rcases mem_setIds hmem with ⟨a, ha, hs⟩
  simp only [strip, Prod.mk.injEq] at hs
  obtain ⟨-, hline, hcol, -, hrule, -⟩ := hs
  rcases List.mem_append.mp ha with hcat | hfill
  · rcases List.mem_flatMap.mp hcat with ⟨r, hr, hmm⟩
    rcases List.mem_map.mp hmm with ⟨m, hm, rfl⟩
    refine ⟨m.1, ?_, ?_⟩
    · rw [hline, show (mkIssue code r m.1).line = (jsSplit '\n' (code.take m.1)).length from rfl,
        length_jsSplit]
    · rw [hcol]
      rfl
  · exfalso
    simp only [fillerIssues, List.mem_cons, List.not_mem_nil, or_false] at hfill
    rcases hfill with rfl | rfl
    · exact hd (by rw [hrule])
    · exact hn (by rw [hrule])

/-- Witness for the amended C1 at concrete inputs: the bare-except issue
on `"x\nexcept: y"` is a catalog-derived issue of the result, and offset
2 realises its line 2 and column 1. -/
theorem matcher_line_column_witness :
    wIssueExcept ∈ (analyzeCode (toL "x\nexcept: y") "python" rnd0).issues
      ∧ wIssueExcept.rule ≠ "documentation"
      ∧ wIssueExcept.rule ≠ "naming-clarity"
      ∧ ∃ idx : Nat,
          wIssueExcept.line = ((toL "x\nexcept: y").take idx).count '\n' + 1
            ∧ wIssueExcept.column =
                (if idx ≠ 0 then (idx : Int) - jsLastIndexOf (toL "x\nexcept: y") '\n' idx else 0) :=
  ⟨by decide, by decide, by decide,
   matcher_line_column (toL "x\nexcept: y") "python" rnd0 wIssueExcept
     (by decide) (by decide) (by decide)⟩

/-- Claim C4: for every first-match rule (any catalog rule whose pattern
is non-global), the number of issues carrying that rule's id is 1 when the
pattern occurs somewhere in the source text and 0 when it does not —
regardless of how many times it occurs. -/
theorem firstmatch_rule_count (code : List Char) (lang : String) (rnd : Rnd) (r : Rule)
    (hr : r ∈ rulesFor lang) (hg : r.global = false) :
    countRule (analyzeCode code lang rnd).issues r.rule =
      if (firstMatch r.pattern code).isSome then 1 else 0 := by
  by_cases hj : lang = "java"
  · subst hj
    rw [rulesFor_java] at hr
    simp only [javaRules, List.mem_cons, List.not_mem_nil, or_false] at hr
    rcases hr with rfl | rfl | rfl | rfl
    · rw [countRule_analyze, rulesFor_java,
        show countRule (fillerIssues rnd) javaRule1.rule = 0 from rfl]
      simp [javaRules, javaRule1, javaRule2, javaRule3, javaRule4, ruleMatches, toList_len]
    · rw [countRule_analyze, rulesFor_java,
        show countRule (fillerIssues rnd) javaRule2.rule = 0 from rfl]
      simp [javaRules, javaRule1, javaRule2, javaRule3, javaRule4, ruleMatches, toList_len]
    · exact absurd hg (by simp [javaRule3])
    · rw [countRule_analyze, rulesFor_java,
        show countRule (fillerIssues rnd) javaRule4.rule = 0 from rfl]
      simp [javaRules, javaRule1, javaRule2, javaRule3, javaRule4, ruleMatches, toList_len]
  · by_cases hp : lang = "python"
    · subst hp
      rw [rulesFor_python] at hr
      simp only [pythonRules, List.mem_cons, List.not_mem_nil, or_false] at hr
      rcases hr with rfl | rfl | rfl
      · rw [countRule_analyze, rulesFor_python,
          show countRule (fillerIssues rnd) pyRule1.rule = 0 from rfl]
        simp [pythonRules, pyRule1, pyRule2, pyRule3, ruleMatches, toList_len]
      · rw [countRule_analyze, rulesFor_python,
          show countRule (fillerIssues rnd) pyRule2.rule = 0 from rfl]
        simp [pythonRules, pyRule1, pyRule2, pyRule3, ruleMatches, toList_len]
      · rw [countRule_analyze, rulesFor_python,
          show countRule (fillerIssues rnd) pyRule3.rule = 0 from rfl]
        simp [pythonRules, pyRule1, pyRule2, pyRule3, ruleMatches, toList_len]
    · by_cases hc : lang = "cpp"
      · subst hc
        rw [rulesFor_cpp] at hr
        simp only [cppRules, List.mem_cons, List.not_mem_nil, or_false] at hr
        rcases hr with rfl | rfl | rfl
        · exact absurd hg (by simp [cppRule1])
        · rw [countRule_analyze, rulesFor_cpp,
            show countRule (fillerIssues rnd) cppRule2.rule = 0 from rfl]
          simp [cppRules, cppRule1, cppRule2, cppRule3, ruleMatches, toList_len]
        · rw [countRule_analyze, rulesFor_cpp,
            show countRule (fillerIssues rnd) cppRule3.rule = 0 from rfl]
          simp [cppRules, cppRule1, cppRule2, cppRule3, ruleMatches, toList_len]
      · rw [rulesFor, if_neg hj, if_neg hp, if_neg hc] at hr
        exact absurd hr (List.not_mem_nil r)

/-- Witness for C4 at concrete inputs: the bare-except rule is a
first-match rule of the python catalog; a source containing `except:` 5
times yields exactly one `exception-handling` issue. -/
theorem firstmatch_rule_count_witness :
    pyRule3 ∈ rulesFor "python"
      ∧ pyRule3.global = false
      ∧ (matchAll pyExceptPattern (toL "except: except: except: except: except:")).length = 5
      ∧ countRule
          (analyzeCode (toL "except: except: except: except: except:") "python" rnd0).issues
          pyRule3.rule = 1 :=
  ⟨by rw [rulesFor_python]
      exact List.mem_cons_of_mem _ (List.mem_cons_of_mem _ (List.mem_cons_self _ _)),
   rfl,
   by decide,
   firstmatch_rule_count (toL "except: except: except: except: except:") "python" rnd0 pyRule3
     (by rw [rulesFor_python]
         exact List.mem_cons_of_mem _ (List.mem_cons_of_mem _ (List.mem_cons_self _ _)))
     rfl⟩

end CodeMate
